import Mathlib

/-!
Verification development for the inventory-invoice-system repository
(src/inventory-invoice-system.py). The Python source is shallowly embedded:
Python floats become `Rat`, Python ints become `Int`, Python dicts become
insertion-ordered association lists (`List (String × α)`) with lookup
(`dictGet`) and update-or-append (`dictSet`) mirroring dict semantics,
and a raised `KeyError` becomes `Except String`.

The Invoice / InvoiceItem / Customer / InvoiceStatus classes and the
ProductCategory enum are referenced but not defined in the source file;
their record shapes are modelled from the spec (section 3) with exactly the
fields the present code reads.
-/

namespace InventoryInvoice

/-- Embedding of the discount-rule class hierarchy (PercentageDiscount,
BulkDiscount) as a sum type; `percentage` carries the percentage, `bulk`
carries the threshold and the percentage. -/
inductive DiscountRule
  | percentage (percentage : Rat)
  | bulk (threshold : Int) (percentage : Rat)
deriving DecidableEq

/-- Embedding of `PercentageDiscount.apply` (lines 51-52):
`return subtotal * (1 - self.percentage / 100)`. -/
def PercentageDiscount.apply (percentage : Rat) (subtotal : Rat) : Rat :=
  subtotal * (1 - percentage / 100)

/-- Embedding of `BulkDiscount.apply` (lines 59-62): the discount factor is
applied only when `quantity >= self.threshold`. -/
def BulkDiscount.apply (threshold : Int) (percentage : Rat)
    (subtotal : Rat) (quantity : Int) : Rat :=
  if quantity ≥ threshold then subtotal * (1 - percentage / 100) else subtotal

/-- Modelled from the spec: the ProductCategory enum is not defined in the
source file; the code only reads `category.value` (a string). -/
structure ProductCategory where
  value : String
deriving DecidableEq

/-- Embedding of the `Product` dataclass (lines 92-104). -/
structure Product where
  id : String
  name : String
  price : Rat
  quantity : Int
  category : ProductCategory
  reorder_level : Int := 10
  discount_rules : List DiscountRule := []
deriving DecidableEq

/-- Loop body of `Product.get_price` (lines 108-112): BulkDiscount rules get
the quantity, all other rules get only the running price. -/
def applyRule (quantity : Int) (price : Rat) : DiscountRule → Rat
  | .bulk threshold pct => BulkDiscount.apply threshold pct price quantity
  | .percentage pct => PercentageDiscount.apply pct price

/-- Embedding of `Product.get_price` (lines 106-113): start from
`price = self.price * quantity` and fold the discount rules in list order. -/
def Product.get_price (p : Product) (quantity : Int) : Rat :=
  p.discount_rules.foldl (applyRule quantity) (p.price * (quantity : Rat))

/-- Modelled from the spec (section 4.1), for comparison with the embedded
`Product.get_price`: start with `price = basePrice * quantity`; for each rule
in order, a PercentageDiscount maps price to `price * (1 - percentage/100)`
and a BulkDiscount does so only when `quantity >= thresholdQuantity`. -/
def computeLinePrice (basePrice : Rat) (quantity : Int)
    (rules : List DiscountRule) : Rat :=
  rules.foldl
    (fun price rule =>
      match rule with
      | .percentage p => price * (1 - p / 100)
      | .bulk threshold p =>
          if quantity ≥ threshold then price * (1 - p / 100) else price)
    (basePrice * (quantity : Rat))

/-- A single rule's percentage lies in [0, 100]. -/
def ruleValid : DiscountRule → Prop
  | .percentage p => 0 ≤ p ∧ p ≤ 100
  | .bulk _ p => 0 ≤ p ∧ p ≤ 100

instance : DecidablePred ruleValid := fun r => by
  cases r <;> simp [ruleValid] <;> infer_instance

/-- Every rule's percentage lies in [0, 100]. -/
def rulesValid (rules : List DiscountRule) : Prop :=
  ∀ r ∈ rules, ruleValid r

instance (rules : List DiscountRule) : Decidable (rulesValid rules) :=
  List.decidableBAll _ rules

lemma applyRule_nonneg_le (q : Int) (price : Rat) (r : DiscountRule)
    (hr : ruleValid r) (h0 : 0 ≤ price) :
    0 ≤ applyRule q price r ∧ applyRule q price r ≤ price := by
  have factor : ∀ p : Rat, 0 ≤ p → p ≤ 100 →
      0 ≤ price * (1 - p / 100) ∧ price * (1 - p / 100) ≤ price := by
    intro p hp hp100
    constructor
    · apply mul_nonneg h0
      have : p / 100 ≤ 1 := by linarith [(by linarith : p ≤ 100)]
      linarith
    · have hdiv : (0 : Rat) ≤ p / 100 := by positivity
      have h1 : (1 : Rat) - p / 100 ≤ 1 := by linarith
      calc price * (1 - p / 100) ≤ price * 1 :=
            mul_le_mul_of_nonneg_left h1 h0
        _ = price := mul_one price
  cases r with
  | percentage p =>
      exact factor p hr.1 hr.2
  | bulk t p =>
      simp only [applyRule, BulkDiscount.apply]
      by_cases hq : q ≥ t
      · simpa [hq] using factor p hr.1 hr.2
      · simp only [if_neg hq]
        exact ⟨h0, le_refl price⟩

lemma foldl_applyRule_bounds (rules : List DiscountRule) (q : Int)
    (start : Rat) (hv : rulesValid rules) (h0 : 0 ≤ start) :
    0 ≤ rules.foldl (applyRule q) start ∧
      rules.foldl (applyRule q) start ≤ start := by
  induction rules generalizing start with
  | nil => exact ⟨h0, le_refl start⟩
  | cons r rest ih =>
      have hr : ruleValid r := hv r (List.mem_cons_self r rest)
      have hrest : rulesValid rest := fun x hx => hv x (List.mem_cons_of_mem r hx)
      have hstep := applyRule_nonneg_le q start r hr h0
      have := ih (applyRule q start r) hrest hstep.1
      exact ⟨this.1, le_trans this.2 hstep.2⟩

/-- Python dict lookup `d.get(k)` / `k in d` on an insertion-ordered
association list. -/
def dictGet {α : Type} : List (String × α) → String → Option α
  | [], _ => none
  | kv :: rest, k => if kv.1 = k then some kv.2 else dictGet rest k

/-- Python dict update `d[k] = v`: replace in place when the key is present,
append otherwise (insertion order preserved). -/
def dictSet {α : Type} (d : List (String × α)) (k : String) (v : α) :
    List (String × α) :=
  if (dictGet d k).isSome then
    d.map (fun kv => if kv.1 = k then (k, v) else kv)
  else d ++ [(k, v)]

lemma dictGet_append {α : Type} (d d' : List (String × α)) (k : String) :
    dictGet (d ++ d') k =
      match dictGet d k with
      | some v => some v
      | none => dictGet d' k := by
  induction d with
  | nil => simp [dictGet]
  | cons kv rest ih =>
      by_cases h : kv.1 = k <;> simp [dictGet, h, ih]

lemma dictGet_map_replace {α : Type} (d : List (String × α)) (k k' : String)
    (v : α) :
    dictGet (d.map (fun kv => if kv.1 = k then (k, v) else kv)) k' =
      if k' = k then (if (dictGet d k).isSome then some v else none)
      else dictGet d k' := by
  induction d with
  | nil => simp [dictGet]
  | cons kv rest ih =>
      by_cases h1 : kv.1 = k
      · by_cases h2 : k' = k
        · subst h2
          simp [dictGet, h1]
        · have h3 : ¬ (k : String) = k' := fun g => h2 g.symm
          simp [dictGet, h1, h2, h3, ih]
      · by_cases h2 : k' = k
        · subst h2
          have h3 : ¬ kv.1 = k' := h1
          simp [dictGet, h1, h3, ih]
        · by_cases h3 : kv.1 = k' <;> simp [dictGet, h1, h2, h3, ih]

lemma dictGet_dictSet {α : Type} (d : List (String × α)) (k k' : String)
    (v : α) :
    dictGet (dictSet d k v) k' = if k' = k then some v else dictGet d k' := by
  unfold dictSet
  by_cases hmem : (dictGet d k).isSome
  · rw [if_pos hmem, dictGet_map_replace]
    by_cases h2 : k' = k <;> simp [h2, hmem]
  · rw [if_neg hmem, dictGet_append]
    by_cases h2 : k' = k
    · subst h2
      have hnone : dictGet d k' = none := by
        cases hd : dictGet d k' <;> simp [hd] at hmem ⊢
      simp [hnone, dictGet]
    · have h3 : ¬ (k : String) = k' := fun g => h2 g.symm
      cases hd : dictGet d k' <;> simp [hd, dictGet, h2, h3]

lemma dictGet_isSome_iff_mem_keys {α : Type} (d : List (String × α))
    (k : String) :
    (dictGet d k).isSome ↔ k ∈ d.map Prod.fst := by
  induction d with
  | nil => simp [dictGet]
  | cons kv rest ih =>
      by_cases h : kv.1 = k
      · subst h
        simp [dictGet]
      · have h' : ¬ (k : String) = kv.1 := fun g => h g.symm
        simp [dictGet, h, h', ih]

/-- Modelled from the spec: the InvoiceStatus enum is not defined in the
source file; the spec (section 3) gives DRAFT, PAID and CANCELLED. -/
inductive InvoiceStatus
  | DRAFT
  | PAID
  | CANCELLED
deriving DecidableEq

/-- Modelled from the spec: the InvoiceItem class is not defined in the
source file; the report code reads `item.product_id`, `item.quantity` and
`item.total`. -/
structure InvoiceItem where
  product_id : String
  quantity : Int
  total : Rat
deriving DecidableEq

/-- Modelled from the spec: the Invoice class is not defined in the source
file; the report code reads `invoice.status`, `invoice.items`,
`invoice.customer_id` and `invoice.total`. -/
structure Invoice where
  id : String
  customer_id : String
  items : List InvoiceItem
  status : InvoiceStatus
  total : Rat
deriving DecidableEq

/-- Modelled from the spec: the Customer class is not defined in the source
file; the report code reads `customer.name`. -/
structure Customer where
  id : String
  name : String
deriving DecidableEq

/-- Embedding of the `User` class (lines 14-25): the password is stored only
as a hash, modelled as an opaque string. -/
structure User where
  username : String
  password_hash : String
  role : String
deriving DecidableEq

/-- State of the `InventorySystem` object (lines 115-122): four dicts keyed
by id. Invoices and users are iterated / looked up by the embedded
operations exactly as the source does. -/
structure InventorySystem where
  products : List (String × Product)
  customers : List (String × Customer)
  invoices : List (String × Invoice)
  users : List (String × User)
deriving DecidableEq

/-- Embedding of `Role.get_permissions` (lines 32-39); the Python sets are
modelled as lists of strings and `permissions.get(role, set())` as an
if-chain over the three known roles. -/
def Role.get_permissions (role : String) : List String :=
  if role = "admin" then ["all"]
  else if role = "manager" then ["read", "write", "create_invoice", "view_reports"]
  else if role = "staff" then ["read", "create_invoice"]
  else []

/-- Embedding of `InventorySystem.check_permission` (lines 130-133): true
when the role's permission set contains "all", else membership of the
requested permission. -/
def check_permission (user : User) (permission : String) : Bool :=
  if "all" ∈ Role.get_permissions user.role then true
  else decide (permission ∈ Role.get_permissions user.role)

/-- Inner-loop body of `generate_product_performance_report` (lines
159-164): initialise the entry for `item.product_id` to zero when absent,
then add `item.quantity` and `item.total`. The two parallel dicts
`product_sales` and `product_revenue`, which always share keys, are fused
into one dict whose values are (units, revenue) pairs. -/
def perfStep (acc : List (String × (Int × Rat))) (item : InvoiceItem) :
    List (String × (Int × Rat)) :=
  let cur := (dictGet acc item.product_id).getD (0, 0)
  dictSet acc item.product_id (cur.1 + item.quantity, cur.2 + item.total)

/-- Aggregation phase of `generate_product_performance_report` (lines
153-164): fold over `self.invoices.values()`, visiting the items of PAID
invoices only. -/
def product_sales_revenue (s : InventorySystem) :
    List (String × (Int × Rat)) :=
  (s.invoices.map Prod.snd).foldl
    (fun acc inv =>
      if inv.status = InvoiceStatus.PAID then inv.items.foldl perfStep acc
      else acc)
    []

/-- Items of all PAID invoices, in iteration order. -/
def paidItems (invoices : List Invoice) : List InvoiceItem :=
  (invoices.filter (fun inv => inv.status = InvoiceStatus.PAID)).flatMap
    (fun inv => inv.items)

/-- Sum of `item.quantity` over the items with the given product id. -/
def itemsQty (items : List InvoiceItem) (pid : String) : Int :=
  ((items.filter (fun it => it.product_id = pid)).map
    (fun it => it.quantity)).sum

/-- Sum of `item.total` over the items with the given product id. -/
def itemsRev (items : List InvoiceItem) (pid : String) : Rat :=
  ((items.filter (fun it => it.product_id = pid)).map
    (fun it => it.total)).sum

/-- Running (units, revenue) totals recorded for a product id, zero when the
id is absent (mirroring the zero-initialisation at lines 160-162). -/
def baseQR (acc : List (String × (Int × Rat))) (pid : String) : Int × Rat :=
  (dictGet acc pid).getD (0, 0)

lemma itemsQty_nil (pid : String) : itemsQty [] pid = 0 := rfl

lemma itemsRev_nil (pid : String) : itemsRev [] pid = 0 := rfl

lemma itemsQty_cons (it : InvoiceItem) (rest : List InvoiceItem)
    (pid : String) :
    itemsQty (it :: rest) pid =
      if it.product_id = pid then it.quantity + itemsQty rest pid
      else itemsQty rest pid := by
  by_cases h : it.product_id = pid <;> simp [itemsQty, List.filter_cons, h]

lemma itemsRev_cons (it : InvoiceItem) (rest : List InvoiceItem)
    (pid : String) :
    itemsRev (it :: rest) pid =
      if it.product_id = pid then it.total + itemsRev rest pid
      else itemsRev rest pid := by
  by_cases h : it.product_id = pid <;> simp [itemsRev, List.filter_cons, h]

lemma itemsQty_append (a b : List InvoiceItem) (pid : String) :
    itemsQty (a ++ b) pid = itemsQty a pid + itemsQty b pid := by
  simp [itemsQty, List.filter_append]

lemma itemsRev_append (a b : List InvoiceItem) (pid : String) :
    itemsRev (a ++ b) pid = itemsRev a pid + itemsRev b pid := by
  simp [itemsRev, List.filter_append]

lemma itemsQty_eq_zero (items : List InvoiceItem) (pid : String)
    (h : pid ∉ items.map (fun it => it.product_id)) : itemsQty items pid = 0 := by
  induction items with
  | nil => rfl
  | cons it rest ih =>
      simp only [List.map_cons, List.mem_cons] at h
      push_neg at h
      rw [itemsQty_cons, if_neg (fun g => h.1 g.symm)]
      exact ih h.2

lemma itemsRev_eq_zero (items : List InvoiceItem) (pid : String)
    (h : pid ∉ items.map (fun it => it.product_id)) : itemsRev items pid = 0 := by
  induction items with
  | nil => rfl
  | cons it rest ih =>
      simp only [List.map_cons, List.mem_cons] at h
      push_neg at h
      rw [itemsRev_cons, if_neg (fun g => h.1 g.symm)]
      exact ih h.2

lemma perf_foldl_items (items : List InvoiceItem)
    (acc : List (String × (Int × Rat))) (pid : String) :
    dictGet (items.foldl perfStep acc) pid =
      if pid ∈ items.map (fun it => it.product_id)
      then some ((baseQR acc pid).1 + itemsQty items pid,
                 (baseQR acc pid).2 + itemsRev items pid)
      else dictGet acc pid := by
  induction items generalizing acc with
  | nil => simp [itemsQty_nil, itemsRev_nil]
  | cons it rest ih =>
      rw [List.foldl_cons, ih (perfStep acc it)]
      have hset : dictGet (perfStep acc it) pid =
          if pid = it.product_id
          then some ((baseQR acc it.product_id).1 + it.quantity,
                     (baseQR acc it.product_id).2 + it.total)
          else dictGet acc pid := by
        simp [perfStep, dictGet_dictSet, baseQR]
      by_cases hpid : it.product_id = pid
      · subst hpid
        have hbase : baseQR (perfStep acc it) it.product_id =
            ((baseQR acc it.product_id).1 + it.quantity,
             (baseQR acc it.product_id).2 + it.total) := by
          simp [baseQR, hset]
        by_cases hmem : it.product_id ∈ rest.map (fun x => x.product_id)
        · simp [hmem, hbase, itemsQty_cons, itemsRev_cons, add_assoc]
        · simp [hmem, hset, itemsQty_cons, itemsRev_cons,
            itemsQty_eq_zero rest it.product_id hmem,
            itemsRev_eq_zero rest it.product_id hmem]
      · have hne : ¬ pid = it.product_id := fun g => hpid g.symm
        have hget : dictGet (perfStep acc it) pid = dictGet acc pid := by
          rw [hset, if_neg hne]
        have hbase : baseQR (perfStep acc it) pid = baseQR acc pid := by
          simp [baseQR, hget]
        by_cases hmem : pid ∈ rest.map (fun x => x.product_id)
        · simp [hmem, hne, hbase, itemsQty_cons, itemsRev_cons, hpid]
        · simp [hmem, hne, hget, itemsQty_cons, itemsRev_cons, hpid]

lemma baseQR_foldl_items (items : List InvoiceItem)
    (acc : List (String × (Int × Rat))) (pid : String) :
    baseQR (items.foldl perfStep acc) pid =
      ((baseQR acc pid).1 + itemsQty items pid,
       (baseQR acc pid).2 + itemsRev items pid) := by
  unfold baseQR
  rw [perf_foldl_items]
  by_cases hmem : pid ∈ items.map (fun it => it.product_id)
  · simp [hmem, baseQR]
  · simp [hmem, itemsQty_eq_zero items pid hmem, itemsRev_eq_zero items pid hmem,
      baseQR]

lemma paidItems_nil : paidItems [] = [] := rfl

lemma paidItems_cons (inv : Invoice) (rest : List Invoice) :
    paidItems (inv :: rest) =
      if inv.status = InvoiceStatus.PAID then inv.items ++ paidItems rest
      else paidItems rest := by
  by_cases h : inv.status = InvoiceStatus.PAID <;>
    simp [paidItems, List.filter_cons, h]

lemma perf_foldl_invs (invs : List Invoice)
    (acc : List (String × (Int × Rat))) (pid : String) :
    dictGet (invs.foldl
        (fun acc inv =>
          if inv.status = InvoiceStatus.PAID then inv.items.foldl perfStep acc
          else acc) acc) pid =
      if pid ∈ (paidItems invs).map (fun it => it.product_id)
      then some ((baseQR acc pid).1 + itemsQty (paidItems invs) pid,
                 (baseQR acc pid).2 + itemsRev (paidItems invs) pid)
      else dictGet acc pid := by
  induction invs generalizing acc with
  | nil => simp [paidItems_nil, itemsQty_nil, itemsRev_nil]
  | cons inv rest ih =>
      rw [List.foldl_cons]
      by_cases hst : inv.status = InvoiceStatus.PAID
      · rw [if_pos hst, ih (inv.items.foldl perfStep acc),
          paidItems_cons, if_pos hst]
        by_cases hmem : pid ∈ (paidItems rest).map (fun it => it.product_id)
        · simp [hmem, baseQR_foldl_items, itemsQty_append, itemsRev_append,
            add_assoc]
        · rw [if_neg hmem, perf_foldl_items]
          by_cases hmem2 : pid ∈ inv.items.map (fun it => it.product_id)
          · simp [hmem, hmem2, itemsQty_append, itemsRev_append,
              itemsQty_eq_zero _ pid hmem, itemsRev_eq_zero _ pid hmem]
          · have : pid ∉ (inv.items ++ paidItems rest).map
                (fun it => it.product_id) := by
              simp only [List.map_append, List.mem_append]
              push_neg
              exact ⟨hmem2, hmem⟩
            rw [if_neg hmem2, if_neg this]
      · rw [if_neg hst, ih acc, paidItems_cons, if_neg hst]

/-- Per-customer accumulator of `generate_customer_analysis_report` (lines
186-196): the dict entry `{total_spent, total_invoices, items_bought}`. -/
structure CustStats where
  total_spent : Rat
  total_invoices : Int
  items_bought : Int
deriving DecidableEq

/-- Loop body of `generate_customer_analysis_report` (lines 184-196):
skip non-PAID invoices; otherwise initialise the customer's entry to zeros
when absent, then add `invoice.total`, count the invoice, and add the sum of
item quantities. -/
def custStep (acc : List (String × CustStats)) (inv : Invoice) :
    List (String × CustStats) :=
  if inv.status = InvoiceStatus.PAID then
    let stats := (dictGet acc inv.customer_id).getD ⟨0, 0, 0⟩
    dictSet acc inv.customer_id
      ⟨stats.total_spent + inv.total, stats.total_invoices + 1,
       stats.items_bought + (inv.items.map (fun it => it.quantity)).sum⟩
  else acc

/-- Aggregation phase of `generate_customer_analysis_report` (lines 181-196):
fold over `self.invoices.values()`. -/
def customer_purchases (s : InventorySystem) : List (String × CustStats) :=
  (s.invoices.map Prod.snd).foldl custStep []

/-- PAID invoices of the given customer, in iteration order. -/
def paidFor (invs : List Invoice) (cid : String) : List Invoice :=
  invs.filter
    (fun inv => inv.status = InvoiceStatus.PAID ∧ inv.customer_id = cid)

/-- Running stats recorded for a customer id, zeros when absent (mirroring
the zero-initialisation at lines 186-191). -/
def baseCust (acc : List (String × CustStats)) (cid : String) : CustStats :=
  (dictGet acc cid).getD ⟨0, 0, 0⟩

lemma paidFor_cons (inv : Invoice) (rest : List Invoice) (cid : String) :
    paidFor (inv :: rest) cid =
      if inv.status = InvoiceStatus.PAID ∧ inv.customer_id = cid
      then inv :: paidFor rest cid else paidFor rest cid := by
  by_cases h : inv.status = InvoiceStatus.PAID ∧ inv.customer_id = cid <;>
    simp [paidFor, List.filter_cons, h]

lemma cust_foldl_invs (invs : List Invoice)
    (acc : List (String × CustStats)) (cid : String) :
    dictGet (invs.foldl custStep acc) cid =
      if (paidFor invs cid).length = 0 then dictGet acc cid
      else some
        ⟨(baseCust acc cid).total_spent +
            ((paidFor invs cid).map (fun inv => inv.total)).sum,
         (baseCust acc cid).total_invoices + (paidFor invs cid).length,
         (baseCust acc cid).items_bought +
            ((paidFor invs cid).map
              (fun inv => (inv.items.map (fun it => it.quantity)).sum)).sum⟩ := by
  induction invs generalizing acc with
  | nil => simp [paidFor]
  | cons inv rest ih =>
      rw [List.foldl_cons, ih (custStep acc inv), paidFor_cons]
      by_cases hp : inv.status = InvoiceStatus.PAID ∧ inv.customer_id = cid
      · rw [if_pos hp]
        have hacc : dictGet (custStep acc inv) cid =
            some ⟨(baseCust acc cid).total_spent + inv.total,
                  (baseCust acc cid).total_invoices + 1,
                  (baseCust acc cid).items_bought +
                    (inv.items.map (fun it => it.quantity)).sum⟩ := by
          simp [custStep, hp.1, hp.2, dictGet_dictSet, baseCust]
        have hbase : baseCust (custStep acc inv) cid =
            ⟨(baseCust acc cid).total_spent + inv.total,
             (baseCust acc cid).total_invoices + 1,
             (baseCust acc cid).items_bought +
               (inv.items.map (fun it => it.quantity)).sum⟩ := by
          simp [baseCust, hacc]
        by_cases hlen : (paidFor rest cid).length = 0
        · have hnil : paidFor rest cid = [] := List.length_eq_zero.mp hlen
          simp [hlen, hnil, hacc]
        · simp only [if_neg hlen, hbase, List.length_cons, List.map_cons,
            List.sum_cons]
          have hlen2 : ¬ ((paidFor rest cid).length + 1 = 0) := by omega
          rw [if_neg hlen2]
          simp only [Option.some.injEq, CustStats.mk.injEq]
          refine ⟨by ring, ?_, by ring⟩
          push_cast
          ring
      · rw [if_neg hp]
        have hacc : dictGet (custStep acc inv) cid = dictGet acc cid := by
          by_cases hst : inv.status = InvoiceStatus.PAID
          · have hcid : ¬ inv.customer_id = cid := fun g => hp ⟨hst, g⟩
            have hcid' : ¬ (cid : String) = inv.customer_id :=
              fun g => hcid g.symm
            simp [custStep, hst, dictGet_dictSet, hcid']
          · simp [custStep, hst]
        have hbase : baseCust (custStep acc inv) cid = baseCust acc cid := by
          simp [baseCust, hacc]
        rw [hacc, hbase]

/-- One product block of the performance report text (lines 167-174): name,
units sold, revenue, current stock and the reorder warning flag. Textual
formatting is a presentation concern; the row carries the printed data. -/
structure PerfRow where
  name : String
  units_sold : Int
  revenue : Rat
  current_stock : Int
  below_reorder : Bool
deriving DecidableEq

/-- Report phase of `generate_product_performance_report` (lines 166-174):
for each key of the sales dict in order, `self.products[product_id]` is
looked up — a missing key raises `KeyError`, modelled as `.error pid`. -/
def buildPerfRows (products : List (String × Product)) :
    List (String × (Int × Rat)) → Except String (List PerfRow)
  | [] => .ok []
  | (pid, sr) :: rest =>
    match dictGet products pid with
    | none => .error pid
    | some p =>
        match buildPerfRows products rest with
        | .error e => .error e
        | .ok rows =>
            .ok (⟨p.name, sr.1, sr.2, p.quantity,
                  decide (p.quantity ≤ p.reorder_level)⟩ :: rows)

/-- Embedding of `generate_product_performance_report` (lines 150-176) as a
state-passing operation: the method only reads `self`, so the state is
returned unchanged; the result is the row list or the raised `KeyError`. -/
def generate_product_performance_report (s : InventorySystem) :
    InventorySystem × Except String (List PerfRow) :=
  (s, buildPerfRows s.products (product_sales_revenue s))

/-- One customer block of the analysis report text (lines 199-205),
including `average_order_value = total_spent / total_invoices`. -/
structure CustRow where
  name : String
  total_spent : Rat
  total_invoices : Int
  items_bought : Int
  average_order_value : Rat
deriving DecidableEq

/-- Report phase of `generate_customer_analysis_report` (lines 198-205):
for each entry of the purchases dict in order, `self.customers[customer_id]`
is looked up — a missing key raises `KeyError`, modelled as `.error cid`. -/
def buildCustRows (customers : List (String × Customer)) :
    List (String × CustStats) → Except String (List CustRow)
  | [] => .ok []
  | (cid, st) :: rest =>
    match dictGet customers cid with
    | none => .error cid
    | some c =>
        match buildCustRows customers rest with
        | .error e => .error e
        | .ok rows =>
            .ok (⟨c.name, st.total_spent, st.total_invoices, st.items_bought,
                  st.total_spent / (st.total_invoices : Rat)⟩ :: rows)

/-- Embedding of `generate_customer_analysis_report` (lines 178-207) as a
state-passing operation: the method only reads `self`, so the state is
returned unchanged. -/
def generate_customer_analysis_report (s : InventorySystem) :
    InventorySystem × Except String (List CustRow) :=
  (s, buildCustRows s.customers (customer_purchases s))

/-- One record of the `data` list built by `export_inventory_report`
(lines 136-142). -/
structure ExportRow where
  id : String
  name : String
  quantity : Int
  price : Rat
  category : String
deriving DecidableEq

/-- Row-construction phase of `export_inventory_report` (lines 135-142) as a
state-passing operation; handing the rows to the CSV/PDF sink is an external
effect outside the core. -/
def export_inventory_report_rows (s : InventorySystem) :
    InventorySystem × List ExportRow :=
  (s, (s.products.map Prod.snd).map
    (fun p => ⟨p.id, p.name, p.quantity, p.price, p.category.value⟩))

/-- An `Except` value holds a result rather than a raised error. -/
def exceptIsOk {ε α : Type} : Except ε α → Bool
  | .ok _ => true
  | .error _ => false

lemma buildPerfRows_isOk (products : List (String × Product))
    (entries : List (String × (Int × Rat))) :
    exceptIsOk (buildPerfRows products entries) = true ↔
      ∀ pid ∈ entries.map Prod.fst, (dictGet products pid).isSome = true := by
  induction entries with
  | nil => simp [buildPerfRows, exceptIsOk]
  | cons e rest ih =>
      obtain ⟨pid, sr⟩ := e
      cases hp : dictGet products pid with
      | none =>
          simp only [buildPerfRows, hp, exceptIsOk]
          constructor
          · intro h
            cases h
          · intro h
            have := h pid (by simp)
            rw [hp] at this
            cases this
      | some p =>
          cases hr : buildPerfRows products rest with
          | error e2 =>
              simp only [buildPerfRows, hp, hr, exceptIsOk]
              constructor
              · intro h
                cases h
              · intro h
                have hall : exceptIsOk (buildPerfRows products rest) = true := by
                  rw [ih]
                  intro q hq
                  exact h q (by simp [List.mem_cons]; right; simpa using hq)
                rw [hr] at hall
                cases hall
          | ok rows =>
              have hrest : ∀ q ∈ rest.map Prod.fst,
                  (dictGet products q).isSome = true := by
                rw [← ih, hr]
                rfl
              simp only [buildPerfRows, hp, hr, exceptIsOk]
              constructor
              · intro _ q hq
                rw [List.map_cons, List.mem_cons] at hq
                rcases hq with h1 | h2
                · rw [h1, hp]
                  rfl
                · exact hrest q h2
              · intro _
                trivial

lemma buildCustRows_isOk (customers : List (String × Customer))
    (entries : List (String × CustStats)) :
    exceptIsOk (buildCustRows customers entries) = true ↔
      ∀ cid ∈ entries.map Prod.fst, (dictGet customers cid).isSome = true := by
  induction entries with
  | nil => simp [buildCustRows, exceptIsOk]
  | cons e rest ih =>
      obtain ⟨cid, st⟩ := e
      cases hp : dictGet customers cid with
      | none =>
          simp only [buildCustRows, hp, exceptIsOk]
          constructor
          · intro h
            cases h
          · intro h
            have := h cid (by simp)
            rw [hp] at this
            cases this
      | some c =>
          cases hr : buildCustRows customers rest with
          | error e2 =>
              simp only [buildCustRows, hp, hr, exceptIsOk]
              constructor
              · intro h
                cases h
              · intro h
                have hall : exceptIsOk (buildCustRows customers rest) = true := by
                  rw [ih]
                  intro q hq
                  exact h q (by simp [List.mem_cons]; right; simpa using hq)
                rw [hr] at hall
                cases hall
          | ok rows =>
              have hrest : ∀ q ∈ rest.map Prod.fst,
                  (dictGet customers q).isSome = true := by
                rw [← ih, hr]
                rfl
              simp only [buildCustRows, hp, hr, exceptIsOk]
              constructor
              · intro _ q hq
                rw [List.map_cons, List.mem_cons] at hq
                rcases hq with h1 | h2
                · rw [h1, hp]
                  rfl
                · exact hrest q h2
              · intro _
                trivial

/-- Outcome of one iteration of the menu loop in `main` (lines 232-269) for
a given choice: entering the reports submenu, entering the export submenu,
logging out, leaving the loop, or falling through the if/elif chain with no
action at all. -/
inductive MenuOutcome
  | reportsMenu
  | exportMenu
  | logout
  | exitProgram
  | noAction
deriving DecidableEq

/-- Embedding of the if/elif dispatch of `main` (lines 234-269): choices
"4" and "5" are guarded by `check_permission(current_user, "view_reports")`;
when the guard fails no elif branch matches and the loop silently
continues. -/
def menu_dispatch (user : User) (choice : String) : MenuOutcome :=
  if choice = "4" ∧ check_permission user "view_reports" = true then
    .reportsMenu
  else if choice = "5" ∧ check_permission user "view_reports" = true then
    .exportMenu
  else if choice = "6" then .logout
  else if choice = "7" then .exitProgram
  else .noAction

lemma mem_sales_keys_iff (s : InventorySystem) (pid : String) :
    pid ∈ (product_sales_revenue s).map Prod.fst ↔
      pid ∈ (paidItems (s.invoices.map Prod.snd)).map
        (fun it => it.product_id) := by
  rw [← dictGet_isSome_iff_mem_keys]
  unfold product_sales_revenue
  rw [perf_foldl_invs]
  by_cases h : pid ∈ (paidItems (s.invoices.map Prod.snd)).map
      (fun it => it.product_id) <;> simp [h, dictGet]

lemma paidFor_length_eq_zero_iff (invs : List Invoice) (cid : String) :
    (paidFor invs cid).length = 0 ↔
      ¬ ∃ inv ∈ invs,
          inv.status = InvoiceStatus.PAID ∧ inv.customer_id = cid := by
  rw [List.length_eq_zero]
  unfold paidFor
  rw [List.filter_eq_nil_iff]
  simp

lemma mem_purchases_keys_iff (s : InventorySystem) (cid : String) :
    cid ∈ (customer_purchases s).map Prod.fst ↔
      ∃ inv ∈ s.invoices.map Prod.snd,
        inv.status = InvoiceStatus.PAID ∧ inv.customer_id = cid := by
  rw [← dictGet_isSome_iff_mem_keys]
  unfold customer_purchases
  rw [cust_foldl_invs]
  by_cases h : (paidFor (s.invoices.map Prod.snd) cid).length = 0
  · rw [if_pos h]
    constructor
    · intro hsome
      simp [dictGet] at hsome
    · intro hex
      exact absurd ((paidFor_length_eq_zero_iff _ _).mp h)
        (not_not_intro hex)
  · rw [if_neg h]
    constructor
    · intro _
      by_contra hnex
      exact h ((paidFor_length_eq_zero_iff _ _).mpr hnex)
    · intro _
      rfl

/-- Claim C1: for every non-negative basePrice, positive quantity and
ordered rule list, `Product.get_price` equals the spec's fold
`computeLinePrice`: start from basePrice * quantity, apply the rules in list
order, a PercentageDiscount scaling by (1 - p/100) and a BulkDiscount doing
so exactly when quantity >= threshold. -/
theorem claim_C1_get_price_is_spec_fold (p : Product) (q : Int)
    (h0 : 0 ≤ p.price) (hq : 0 < q) :
    p.get_price q = computeLinePrice p.price q p.discount_rules := by
  unfold Product.get_price computeLinePrice
  congr 1
  funext price rule
  cases rule <;> rfl

/-- Witness for claim C1: the spec's worked example, price 100 with a 10%
discount then a bulk 20% discount at threshold 5, quantity 5. -/
theorem claim_C1_get_price_is_spec_fold_witness :
    (0 : Rat) ≤ (⟨"p1", "Widget", 100, 20, ⟨"general"⟩, 10,
        [.percentage 10, .bulk 5 20]⟩ : Product).price ∧
    (0 : Int) < 5 ∧
    Product.get_price ⟨"p1", "Widget", 100, 20, ⟨"general"⟩, 10,
        [.percentage 10, .bulk 5 20]⟩ 5 =
      computeLinePrice 100 5 [.percentage 10, .bulk 5 20] :=
  ⟨by norm_num, by norm_num,
   claim_C1_get_price_is_spec_fold _ 5 (by norm_num) (by norm_num)⟩

/-- Claim C2 counterexample: a 200% percentage rule drives the line price to
-1; `Product.get_price` performs no clamping at zero, so the claimed
non-negativity fails. -/
theorem claim_C2_counterexample :
    Product.get_price ⟨"p1", "Widget", 1, 0, ⟨"general"⟩, 10,
        [.percentage 200]⟩ 1 = -1 ∧
    ¬ (0 : Rat) ≤ Product.get_price ⟨"p1", "Widget", 1, 0, ⟨"general"⟩, 10,
        [.percentage 200]⟩ 1 := by
  have hval : Product.get_price ⟨"p1", "Widget", 1, 0, ⟨"general"⟩, 10,
      [.percentage 200]⟩ 1 = -1 := by
    norm_num [Product.get_price, applyRule, PercentageDiscount.apply]
  refine ⟨hval, ?_⟩
  rw [hval]
  norm_num

/-- Claim C2 as amended: with non-negative basePrice, positive quantity and
every rule percentage in [0, 100], the line price is non-negative; the code
never clamps, so a percentage above 100 can produce a negative price. -/
theorem claim_C2_nonneg_price (p : Product) (q : Int)
    (h0 : 0 ≤ p.price) (hq : 0 < q) (hv : rulesValid p.discount_rules) :
    0 ≤ p.get_price q := by
  have hstart : (0 : Rat) ≤ p.price * (q : Rat) :=
    mul_nonneg h0 (by exact_mod_cast hq.le)
  exact (foldl_applyRule_bounds p.discount_rules q _ hv hstart).1

/-- Witness for the amended claim C2: price 100, quantity 2, one 50%
discount rule. -/
theorem claim_C2_nonneg_price_witness :
    (0 : Rat) ≤ (⟨"p1", "Widget", 100, 20, ⟨"general"⟩, 10,
        [.percentage 50]⟩ : Product).price ∧
    (0 : Int) < 2 ∧
    rulesValid [.percentage 50] ∧
    0 ≤ Product.get_price ⟨"p1", "Widget", 100, 20, ⟨"general"⟩, 10,
        [.percentage 50]⟩ 2 :=
  ⟨by norm_num, by norm_num, by decide,
   claim_C2_nonneg_price _ 2 (by norm_num) (by norm_num) (by decide)⟩

/-- Claim C3: with non-negative basePrice, positive quantity and percentages
in [0, 100], the line price is at most basePrice * quantity, and appending a
further such rule never increases the result. -/
theorem claim_C3_discounts_non_increasing (p : Product) (q : Int)
    (r : DiscountRule) (h0 : 0 ≤ p.price) (hq : 0 < q)
    (hv : rulesValid p.discount_rules) (hr : ruleValid r) :
    p.get_price q ≤ p.price * (q : Rat) ∧
    Product.get_price
        { p with discount_rules := p.discount_rules ++ [r] } q ≤
      p.get_price q := by
  have hstart : (0 : Rat) ≤ p.price * (q : Rat) :=
    mul_nonneg h0 (by exact_mod_cast hq.le)
  have hb := foldl_applyRule_bounds p.discount_rules q (p.price * (q : Rat))
    hv hstart
  refine ⟨hb.2, ?_⟩
  show (p.discount_rules ++ [r]).foldl (applyRule q)
      (p.price * (q : Rat)) ≤ _
  rw [List.foldl_append]
  simp only [List.foldl_cons, List.foldl_nil]
  exact (applyRule_nonneg_le q _ r hr hb.1).2

/-- Witness for claim C3: price 100, quantity 5, a 10% rule already in the
list and a bulk 20% rule at threshold 5 appended. -/
theorem claim_C3_discounts_non_increasing_witness :
    (0 : Rat) ≤ (⟨"p1", "Widget", 100, 20, ⟨"general"⟩, 10,
        [.percentage 10]⟩ : Product).price ∧
    (0 : Int) < 5 ∧
    rulesValid [.percentage 10] ∧
    ruleValid (.bulk 5 20) ∧
    (Product.get_price ⟨"p1", "Widget", 100, 20, ⟨"general"⟩, 10,
        [.percentage 10]⟩ 5 ≤ 100 * (5 : Rat) ∧
     Product.get_price ⟨"p1", "Widget", 100, 20, ⟨"general"⟩, 10,
        [.percentage 10, .bulk 5 20]⟩ 5 ≤
       Product.get_price ⟨"p1", "Widget", 100, 20, ⟨"general"⟩, 10,
        [.percentage 10]⟩ 5) :=
  ⟨by norm_num, by norm_num, by decide, by decide,
   claim_C3_discounts_non_increasing _ 5 (.bulk 5 20) (by norm_num)
     (by norm_num) (by decide) (by decide)⟩

/-- Claim C4: `BulkDiscount.apply` discounts exactly when
quantity >= threshold; at quantity = threshold the discounted value is
returned, at quantity = threshold - 1 the subtotal is returned unchanged. -/
theorem claim_C4_bulk_threshold_boundary (t : Int) (pct : Rat) (sub : Rat)
    (q : Int) :
    BulkDiscount.apply t pct sub q =
      (if q ≥ t then sub * (1 - pct / 100) else sub) ∧
    BulkDiscount.apply t pct sub t = sub * (1 - pct / 100) ∧
    BulkDiscount.apply t pct sub (t - 1) = sub := by
  refine ⟨rfl, ?_, ?_⟩
  · simp [BulkDiscount.apply]
  · have h : ¬ (t - 1 ≥ t) := by omega
    simp [BulkDiscount.apply, h]

/-- Claim C5: the product performance aggregation keyed by product id holds
exactly the ids occurring in PAID invoices' items, mapping each to the sum
of item quantities and the sum of item totals; ids absent from every PAID
invoice are omitted, and non-PAID invoices contribute nothing. -/
theorem claim_C5_performance_aggregation (s : InventorySystem)
    (pid : String) :
    dictGet (product_sales_revenue s) pid =
      if pid ∈ (paidItems (s.invoices.map Prod.snd)).map
          (fun it => it.product_id)
      then some (itemsQty (paidItems (s.invoices.map Prod.snd)) pid,
                 itemsRev (paidItems (s.invoices.map Prod.snd)) pid)
      else none := by
  unfold product_sales_revenue
  rw [perf_foldl_invs]
  by_cases h : pid ∈ (paidItems (s.invoices.map Prod.snd)).map
      (fun it => it.product_id) <;> simp [h, baseQR, dictGet]

/-- Claim C6: every entry of the customer analysis accumulator stems from at
least one PAID invoice of that customer, and its invoice count is at least
1, so the average-order-value division never divides by zero. -/
theorem claim_C6_invoice_count_positive (s : InventorySystem) (cid : String)
    (st : CustStats)
    (h : dictGet (customer_purchases s) cid = some st) :
    (∃ inv ∈ s.invoices.map Prod.snd,
        inv.status = InvoiceStatus.PAID ∧ inv.customer_id = cid) ∧
    1 ≤ st.total_invoices := by
  unfold customer_purchases at h
  rw [cust_foldl_invs] at h
  by_cases hlen : (paidFor (s.invoices.map Prod.snd) cid).length = 0
  · rw [if_pos hlen] at h
    simp [dictGet] at h
  · rw [if_neg hlen] at h
    constructor
    · by_contra hnex
      exact hlen ((paidFor_length_eq_zero_iff _ _).mpr hnex)
    · have hst := (Option.some.inj h).symm
      have hone : 1 ≤ (paidFor (s.invoices.map Prod.snd) cid).length :=
        Nat.one_le_iff_ne_zero.mpr hlen
      have hcast : (1 : Int) ≤
          ((paidFor (s.invoices.map Prod.snd) cid).length : Int) := by
        exact_mod_cast hone
      rw [hst]
      show 1 ≤ (baseCust [] cid).total_invoices +
        ((paidFor (s.invoices.map Prod.snd) cid).length : Int)
      have hbase : baseCust ([] : List (String × CustStats)) cid =
          ⟨0, 0, 0⟩ := rfl
      rw [hbase]
      simpa using hcast

/-- Witness for claim C6: a snapshot with a single PAID invoice for customer
"c1" yields the entry (50, 1, 2) and an invoice count of 1. -/
theorem claim_C6_invoice_count_positive_witness :
    dictGet (customer_purchases
        ⟨[], [("c1", ⟨"c1", "Alice"⟩)],
         [("i1", ⟨"i1", "c1", [⟨"p1", 2, 50⟩], InvoiceStatus.PAID, 50⟩)],
         []⟩) "c1" = some ⟨50, 1, 2⟩ ∧
    ((∃ inv ∈ (⟨[], [("c1", ⟨"c1", "Alice"⟩)],
         [("i1", ⟨"i1", "c1", [⟨"p1", 2, 50⟩], InvoiceStatus.PAID, 50⟩)],
         []⟩ : InventorySystem).invoices.map Prod.snd,
        inv.status = InvoiceStatus.PAID ∧ inv.customer_id = "c1") ∧
     1 ≤ (⟨50, 1, 2⟩ : CustStats).total_invoices) :=
  ⟨by norm_num [customer_purchases, custStep, dictGet, dictSet],
   claim_C6_invoice_count_positive _ "c1" _
     (by norm_num [customer_purchases, custStep, dictGet, dictSet])⟩

/-- Claim C7 counterexample: a staff user lacks view_reports, yet menu
choice "4" (reports) and "5" (export) both fall through the if/elif chain of
`main` to the silent no-action outcome — the request completes silently with
no reported permission failure. -/
theorem claim_C7_counterexample :
    check_permission ⟨"s", "h", "staff"⟩ "view_reports" = false ∧
    menu_dispatch ⟨"s", "h", "staff"⟩ "4" = MenuOutcome.noAction ∧
    menu_dispatch ⟨"s", "h", "staff"⟩ "5" = MenuOutcome.noAction := by
  refine ⟨?_, ?_, ?_⟩ <;> decide

/-- Claim C7 as amended: a report or export request by a user lacking
view_reports is silently ignored — the dispatch yields the no-action
outcome, so no report (empty, downgraded or otherwise) is produced, but no
permission failure is reported either. -/
theorem claim_C7_unauthorized_silent_noop (user : User) (choice : String)
    (h : check_permission user "view_reports" = false)
    (hc : choice = "4" ∨ choice = "5") :
    menu_dispatch user choice = MenuOutcome.noAction := by
  rcases hc with rfl | rfl <;> simp [menu_dispatch, h]

/-- Witness for the amended claim C7: the staff role and menu choice "4". -/
theorem claim_C7_unauthorized_silent_noop_witness :
    check_permission ⟨"s", "h", "staff"⟩ "view_reports" = false ∧
    (("4" : String) = "4" ∨ ("4" : String) = "5") ∧
    menu_dispatch ⟨"s", "h", "staff"⟩ "4" = MenuOutcome.noAction :=
  ⟨by decide, Or.inl rfl,
   claim_C7_unauthorized_silent_noop _ "4" (by decide) (Or.inl rfl)⟩

/-- Claim C8: the two report generators and the export row construction are
pure reads — each returns the snapshot unchanged, so the products,
customers, invoices and users collections are identical before and after. -/
theorem claim_C8_reports_pure (s : InventorySystem) :
    (generate_product_performance_report s).1 = s ∧
    (generate_customer_analysis_report s).1 = s ∧
    (export_inventory_report_rows s).1 = s :=
  ⟨rfl, rfl, rfl⟩

/-- Witness for claim C8 at a concrete snapshot (the binder is a snapshot,
not a proposition, so this is instantiation at the empty snapshot). -/
theorem claim_C8_reports_pure_witness :
    (generate_product_performance_report ⟨[], [], [], []⟩).1 =
      (⟨[], [], [], []⟩ : InventorySystem) ∧
    (generate_customer_analysis_report ⟨[], [], [], []⟩).1 =
      (⟨[], [], [], []⟩ : InventorySystem) ∧
    (export_inventory_report_rows ⟨[], [], [], []⟩).1 =
      (⟨[], [], [], []⟩ : InventorySystem) :=
  claim_C8_reports_pure ⟨[], [], [], []⟩

/-- Claim C9: a user whose role is "admin" passes the permission check for
each of the actions read, write, create_invoice and view_reports, because
the admin permission set is the wildcard "all". -/
theorem claim_C9_admin_has_all_actions (user : User) (action : String)
    (hrole : user.role = "admin")
    (ha : action ∈ ["read", "write", "create_invoice", "view_reports"]) :
    check_permission user action = true := by
  simp [check_permission, Role.get_permissions, hrole]

/-- Witness for claim C9: an admin user and the view_reports action. -/
theorem claim_C9_admin_has_all_actions_witness :
    (⟨"a", "h", "admin"⟩ : User).role = "admin" ∧
    ("view_reports" : String) ∈
      ["read", "write", "create_invoice", "view_reports"] ∧
    check_permission ⟨"a", "h", "admin"⟩ "view_reports" = true :=
  ⟨rfl, by decide, claim_C9_admin_has_all_actions _ _ rfl (by decide)⟩

/-- Claim C10: the product performance report succeeds exactly when every
PAID invoice item's product id resolves in the products map, and the
customer analysis report succeeds exactly when every PAID invoice's customer
id resolves in the customers map; a dangling foreign key makes the
corresponding lookup raise (modelled as the error result), and under the
referential-consistency precondition neither lookup can fail. -/
theorem claim_C10_reports_total_iff_refs_resolve (s : InventorySystem) :
    (exceptIsOk (generate_product_performance_report s).2 = true ↔
      ∀ it ∈ paidItems (s.invoices.map Prod.snd),
        (dictGet s.products it.product_id).isSome = true) ∧
    (exceptIsOk (generate_customer_analysis_report s).2 = true ↔
      ∀ inv ∈ s.invoices.map Prod.snd,
        inv.status = InvoiceStatus.PAID →
          (dictGet s.customers inv.customer_id).isSome = true) := by
  constructor
  · show exceptIsOk (buildPerfRows s.products (product_sales_revenue s)) =
      true ↔ _
    rw [buildPerfRows_isOk]
    constructor
    · intro h it hit
      exact h it.product_id
        ((mem_sales_keys_iff s _).mpr (List.mem_map_of_mem _ hit))
    · intro h pid hpid
      obtain ⟨it, hit, rfl⟩ :=
        List.mem_map.mp ((mem_sales_keys_iff s pid).mp hpid)
      exact h it hit
  · show exceptIsOk (buildCustRows s.customers (customer_purchases s)) =
      true ↔ _
    rw [buildCustRows_isOk]
    constructor
    · intro h inv hinv hpaid
      refine h inv.customer_id ((mem_purchases_keys_iff s _).mpr ?_)
      exact ⟨inv, hinv, hpaid, rfl⟩
    · intro h cid hcid
      obtain ⟨inv, hinv, hpaid, rfl⟩ :=
        (mem_purchases_keys_iff s cid).mp hcid
      exact h inv hinv hpaid

end InventoryInvoice
